import Mathlib

/-!
Shallow embedding of the zcash-donation-tracker core (src/zdt/rpc_client.py,
src/zdt/models.py, src/zdt/webapp.py) and proofs about the frozen claims.

Modelling conventions:
- Python floats carrying ZEC amounts and wall-clock seconds are modelled as
  rationals (the data model specifies decimal values with 1e-8 precision,
  and every aggregation performed by the code is a plain sum).
- Python datetime values are modelled by their epoch-seconds value.
- Python truthiness is made explicit wherever the source branches on it
  (for example "if memo:", "if not received:", "if self.block_time:").
- JSON values from the node are modelled by an inductive Json type where a
  call site consumes arbitrary JSON, and by typed fields where the source
  only ever reads typed data out of the response.
-/

namespace ZDT

/-- JSON values as parsed from a node response body. -/
inductive Json where
  | null : Json
  | bool (b : Bool) : Json
  | num (q : ℚ) : Json
  | str (s : String) : Json
  | arr (items : List Json) : Json
  | obj (fields : List (String × Json)) : Json
deriving Repr

/-- Python truthiness of a JSON value: None, False, 0, empty string, empty
list and empty dict are falsy, everything else is truthy. -/
def Json.truthy : Json → Bool
  | .null => false
  | .bool b => b
  | .num q => q != 0
  | .str s => s != ""
  | .arr items => !items.isEmpty
  | .obj fields => !fields.isEmpty

/-- Dictionary lookup, data.get(key): first binding wins. -/
def jsonGet (fields : List (String × Json)) (key : String) : Option Json :=
  match fields with
  | [] => none
  | (k, v) :: rest => if k = key then some v else jsonGet rest key

/-! ### Memo decoding (rpc_client.py, scan_donations per-entry parse)

The source decodes a present memo with
  bytes.fromhex(memo).decode("utf-8", errors="ignore").strip("\x00")
inside a try/except that falls back to the raw string. -/

/-- Value of a hexadecimal digit, or none. -/
def hexDigit (c : Char) : Option Nat :=
  if '0' ≤ c ∧ c ≤ '9' then some (c.toNat - '0'.toNat)
  else if 'a' ≤ c ∧ c ≤ 'f' then some (c.toNat - 'a'.toNat + 10)
  else if 'A' ≤ c ∧ c ≤ 'F' then some (c.toNat - 'A'.toNat + 10)
  else none

/-- Pairs of hex digits to byte values; fails on a stray digit or a
non-hex character. -/
def hexPairs : List Char → Option (List Nat)
  | [] => some []
  | [_] => none
  | a :: b :: rest =>
    match hexDigit a, hexDigit b, hexPairs rest with
    | some ha, some hb, some bs => some ((ha * 16 + hb) :: bs)
    | _, _, _ => none

/-- Embeds bytes.fromhex: ASCII spaces between bytes are skipped, then the
string must be an even number of hex digits; returns none where Python
raises ValueError. -/
def bytesFromHex (s : String) : Option (List Nat) :=
  hexPairs (s.data.filter (fun c => c ≠ ' '))

/-- Is the byte a UTF-8 continuation byte (0x80..0xBF)? -/
def isCont (b : Nat) : Bool := 0x80 ≤ b && b ≤ 0xBF

/-- Allowed range of the first continuation byte of a 3-byte sequence,
which depends on the lead byte (excludes overlong forms and surrogates). -/
def cont3ok (b c : Nat) : Bool :=
  if b = 0xE0 then 0xA0 ≤ c && c ≤ 0xBF
  else if b = 0xED then 0x80 ≤ c && c ≤ 0x9F
  else isCont c

/-- Allowed range of the first continuation byte of a 4-byte sequence,
which depends on the lead byte (excludes overlong forms and values above
U+10FFFF). -/
def cont4ok (b c : Nat) : Bool :=
  if b = 0xF0 then 0x90 ≤ c && c ≤ 0xBF
  else if b = 0xF4 then 0x80 ≤ c && c ≤ 0x8F
  else isCont c

/-- One UTF-8 decoding step at lead byte b with lookahead bs: yields the
decoded character (or none if the sequence at b is ill-formed) and how many
lookahead bytes the sequence consumed beyond b itself. -/
def utf8Step (b : Nat) (bs : List Nat) : Option Char × Nat :=
  if b < 0x80 then (some (Char.ofNat b), 0)
  else if b < 0xC2 then (none, 0)
  else if b ≤ 0xDF then
    match bs with
    | c :: _ =>
      if isCont c then (some (Char.ofNat ((b - 0xC0) * 0x40 + (c - 0x80))), 1)
      else (none, 0)
    | [] => (none, 0)
  else if b ≤ 0xEF then
    match bs with
    | c :: d :: _ =>
      if cont3ok b c && isCont d then
        (some (Char.ofNat ((b - 0xE0) * 0x1000 + (c - 0x80) * 0x40 + (d - 0x80))), 2)
      else (none, 0)
    | _ => (none, 0)
  else if b ≤ 0xF4 then
    match bs with
    | c :: d :: e :: _ =>
      if cont4ok b c && isCont d && isCont e then
        (some (Char.ofNat ((b - 0xF0) * 0x40000 + (c - 0x80) * 0x1000 +
            (d - 0x80) * 0x40 + (e - 0x80))), 3)
      else (none, 0)
    | _ => (none, 0)
  else (none, 0)

/-- Embeds str.decode("utf-8", errors="ignore"): decode well-formed UTF-8
sequences and drop the bytes of ill-formed subsequences. Dropping one byte
at a time on a failed match yields the same string as dropping maximal
ill-formed subsequences, because every proper prefix of a sequence consists
of a lead byte followed by continuation bytes, each of which is itself
dropped when re-examined. -/
def utf8DecodeIgnoreFuel : Nat → List Nat → List Char
  | 0, _ => []
  | _, [] => []
  | fuel + 1, b :: bs =>
    match utf8Step b bs with
    | (some ch, k) => ch :: utf8DecodeIgnoreFuel fuel (bs.drop k)
    | (none, _) => utf8DecodeIgnoreFuel fuel bs

/-- The lossy decode of a whole byte list; every step consumes at least the
lead byte, so the length of the list is enough fuel. -/
def utf8DecodeIgnore (l : List Nat) : List Char := utf8DecodeIgnoreFuel l.length l

/-- Embeds str.strip("\x00"): remove NUL characters from both ends of the
string (Python strip removes from the left and the right). -/
def stripNulsBoth (cs : List Char) : List Char :=
  ((cs.dropWhile (fun c => c = '\x00')).reverse.dropWhile (fun c => c = '\x00')).reverse

/-- Modelled from the spec sentence of the claim, not from the source:
strip trailing NUL padding only, leading characters preserved. Stated for
comparison against the source embedding stripNulsBoth. -/
def stripTrailingNulsOnly (cs : List Char) : List Char :=
  (cs.reverse.dropWhile (fun c => c = '\x00')).reverse

/-- The whole per-memo decode attempt of scan_donations: hex decode, lossy
UTF-8 decode, strip NUL padding; on a hex failure (the only fallible step)
the original raw string is kept, as the try/except does. -/
def decodeMemoValue (m : String) : String :=
  match bytesFromHex m with
  | some bs => String.mk (stripNulsBoth (utf8DecodeIgnore bs))
  | none => m

/-! ### Data model (models.py) -/

/-- Embeds the Transaction dataclass of models.py. -/
structure Transaction where
  txid : String
  amount : ℚ
  confirmations : ℤ
  block_time : Option ℤ := none
  memo : Option String := none
deriving DecidableEq, Repr

/-- Python truthiness of the Optional[int] block_time field: None and 0 are
falsy. -/
def pyTruthyOptInt : Option ℤ → Bool
  | none => false
  | some n => n != 0

/-- Embeds the Transaction.timestamp property: a datetime is modelled by
its epoch-seconds value; the body is "if self.block_time: return
datetime.fromtimestamp(self.block_time); return None", so a block_time that
is None or 0 gives None. -/
def Transaction.timestamp (tx : Transaction) : Option ℤ :=
  if pyTruthyOptInt tx.block_time then tx.block_time else none

/-- Embeds the DonationSummary dataclass of models.py; last_updated is a
datetime modelled as epoch seconds (rational, Python datetimes have
sub-second precision). -/
structure DonationSummary where
  total_donations : ℚ
  tx_count : ℕ
  last_updated : ℚ
  transactions : List Transaction
deriving DecidableEq, Repr

/-- Sort key used by get_last_transactions (x.block_time of an entry that
passed the truthiness filter). -/
def btKey (tx : Transaction) : ℤ := tx.block_time.getD 0

/-- Stable insertion into a list sorted by descending block time: the new,
originally earlier element goes before elements with an equal key, which is
how Python sorted(..., reverse=True) keeps ties in original order. -/
def insertByBlockTimeDesc (tx : Transaction) : List Transaction → List Transaction
  | [] => [tx]
  | y :: ys =>
    if btKey y ≤ btKey tx then tx :: y :: ys
    else y :: insertByBlockTimeDesc tx ys

/-- Stable sort by descending block time; extensionally equal to the stable
sorted(txs, key=lambda x: x.block_time, reverse=True) of the source. -/
def sortByBlockTimeDesc : List Transaction → List Transaction
  | [] => []
  | x :: xs => insertByBlockTimeDesc x (sortByBlockTimeDesc xs)

/-- Embeds DonationSummary.get_last_transactions: filter out transactions
with a falsy block_time, sort by block time most recent first, take the
first limit elements. -/
def get_last_transactions (s : DonationSummary) (limit : ℕ) : List Transaction :=
  (sortByBlockTimeDesc (s.transactions.filter (fun tx => pyTruthyOptInt tx.block_time))).take
    limit

/-! ### String helpers for Python expressions used by the source
("needle in str(e).lower()") -/

/-- Does the second list occur at the head of the first? -/
def headMatches : List Char → List Char → Bool
  | _, [] => true
  | [], _ :: _ => false
  | a :: as, b :: bs => a = b && headMatches as bs

/-- Substring occurrence test over character lists. -/
def containsSub : List Char → List Char → Bool
  | hay, needle =>
    headMatches hay needle ||
      match hay with
      | [] => false
      | _ :: t => containsSub t needle

/-- Embeds the Python "sub in s" membership test on strings. -/
def strContains (s sub : String) : Bool := containsSub s.data sub.data

/-- ASCII lowercasing of one character. -/
def asciiLower (c : Char) : Char :=
  if 'A' ≤ c ∧ c ≤ 'Z' then Char.ofNat (c.toNat + 32) else c

/-- Embeds str.lower() on the ASCII error messages the source inspects. -/
def strLower (s : String) : String := String.mk (s.data.map asciiLower)

/-- Classification used by import_viewing_key: "already have" in
str(e).lower(). -/
def mentionsAlreadyHave (e : String) : Bool :=
  strContains (strLower e) "already have"

/-- Classification used by scan_donations: "invalid parameter" in
str(e).lower(). -/
def mentionsInvalidParameter (e : String) : Bool :=
  strContains (strLower e) "invalid parameter"

/-! ### RPC transport result handling (rpc_client.py, method with the
underscore-prefixed name call) -/

/-- Simplified stand-in for Python str() on a JSON value; the source only
reaches it when an error value is truthy and has no string under the
message key, which a conforming response body never is. -/
def pyStr : Json → String
  | .null => "None"
  | .bool b => cond b "True" "False"
  | .num q => toString q
  | .str s => s
  | .arr _ => "<list>"
  | .obj _ => "<dict>"

/-- Embeds error.get("message", str(error)) followed by string formatting:
the message value of an error object, or the printed error otherwise. -/
def errMessage : Json → String
  | .obj fields =>
    match jsonGet fields "message" with
    | some v => pyStr v
    | none => pyStr (.obj fields)
  | e => pyStr e

/-- Embeds the response-body handling of the RPC call method: if the parsed
body has a truthy error field, raise ZcashRPCError with the remote message;
otherwise return data.get("result"), with a missing result field read as
None. Transport-level failures happen before this point and are modelled as
the error branch of the node behaviour elsewhere. -/
def rpc_call_result (data : List (String × Json)) : Except String Json :=
  match jsonGet data "error" with
  | some e =>
    if e.truthy then .error ("RPC error: " ++ errMessage e)
    else .ok ((jsonGet data "result").getD Json.null)
  | none => .ok ((jsonGet data "result").getD Json.null)

/-- Well-formedness of a response body per the documented envelope: the
error field, when present, is null or an object with a numeric code and a
string message. -/
def WellFormedResponse (data : List (String × Json)) : Prop :=
  ∀ e, jsonGet data "error" = some e →
    e = Json.null ∨
      ∃ fields, e = Json.obj fields ∧
        (∃ q, jsonGet fields "code" = some (Json.num q)) ∧
        ∃ m, jsonGet fields "message" = some (Json.str m)

/-! ### Scan engine (rpc_client.py, scan_donations and its helpers) -/

/-- One raw entry of the z_listreceivedbyaddress result, with the wire
fields the source reads; a missing field is none and the item.get defaults
apply at the use sites. -/
structure RawEntry where
  txid : Option String := none
  amount : Option ℚ := none
  confirmations : Option ℤ := none
  blocktime : Option ℤ := none
  memo : Option String := none
deriving DecidableEq, Repr

/-- Amount read from an entry, item.get("amount", 0.0). -/
def entryAmount (e : RawEntry) : ℚ := e.amount.getD 0

/-- The Transaction that the scan loop builds from one raw entry,
including the memo decode attempt guarded by the truthiness test
"if memo:" (a missing or empty memo is left as is). -/
def mkTransactionOfEntry (e : RawEntry) : Transaction :=
  { txid := e.txid.getD ""
    amount := entryAmount e
    confirmations := e.confirmations.getD 0
    block_time := e.blocktime
    memo :=
      match e.memo with
      | some m => if m ≠ "" then some (decodeMemoValue m) else some m
      | none => none }

/-- One iteration of the aggregation loop: an entry with positive amount is
added to the running total and appended to the transfer list; any other
entry is skipped. -/
def scanFoldStep (acc : List Transaction × ℚ) (e : RawEntry) : List Transaction × ℚ :=
  if 0 < entryAmount e then (acc.1 ++ [mkTransactionOfEntry e], acc.2 + entryAmount e)
  else acc

/-- The whole aggregation loop over the received entries. -/
def aggregateEntries (entries : List RawEntry) : List Transaction × ℚ :=
  entries.foldl scanFoldStep ([], 0)

/-- Summary built by scan_donations from the list-received result: a null
or empty result short-circuits to the zero summary ("if not received"),
otherwise the loop aggregates. -/
def buildSummary (received : Option (List RawEntry)) (now : ℚ) : DonationSummary :=
  match received with
  | none => ⟨0, 0, now, []⟩
  | some entries =>
    if entries.isEmpty then ⟨0, 0, now, []⟩
    else
      let (txs, total) := aggregateEntries entries
      ⟨total, txs.length, now, txs⟩

/-- A parameter value of a JSON-RPC request as built by the source. -/
inductive JParam where
  | str (s : String) : JParam
  | num (n : ℤ) : JParam
  | bool (b : Bool) : JParam
deriving DecidableEq, Repr

/-- A JSON-RPC request: method name and positional parameters. -/
structure RpcReq where
  method : String
  params : List JParam
deriving DecidableEq, Repr

/-- Behaviour of the remote node for the calls one scan makes: the outcome
of the import call, of z_listaddresses, and of the two possible
z_listreceivedbyaddress call shapes. An error value is the full message
text of the raised ZcashRPCError; a none list-received payload is a JSON
null result. -/
structure Node where
  importKeyRes : Except String Unit
  listAddressesRes : Except String (List String)
  listReceivedPrimaryRes : Except String (Option (List RawEntry))
  listReceivedAltRes : Except String (Option (List RawEntry))

/-- Embeds import_viewing_key: a failure whose lowered message contains
"already have" is swallowed (key already imported), any other failure is
re-raised. -/
def viewing_key_import (res : Except String Unit) : Except String Unit :=
  match res with
  | .ok _ => .ok ()
  | .error e => if mentionsAlreadyHave e then .ok () else .error e

/-- Embeds get_address_from_viewing_key: first element of a truthy
z_listaddresses result, none on a falsy result or any RPC failure. -/
def get_address_from_viewing_key (node : Node) : Option String :=
  match node.listAddressesRes with
  | .error _ => none
  | .ok [] => none
  | .ok (a :: _) => some a

/-- Embeds the parameter construction of list_received_by_address:
params = [min_conf], then includeWatchonly False and the address are
appended when the address argument is truthy. -/
def list_received_params (address : Option String) (min_conf : ℤ) : List JParam :=
  match address with
  | some a => if a ≠ "" then [.num min_conf, .bool false, .str a] else [.num min_conf]
  | none => [.num min_conf]

/-- Embeds scan_donations as a function of the node behaviour and the
wall clock, returning the result together with the trace of JSON-RPC
requests issued, in order. -/
def scan_donations (node : Node) (vk : String) (now : ℚ) :
    Except String DonationSummary × List RpcReq :=
  let req1 : RpcReq := ⟨"z_importviewingkey", [.str vk, .str "whenkeyisnew"]⟩
  match viewing_key_import node.importKeyRes with
  | .error e => (.error ("Failed to import viewing key: " ++ e), [req1])
  | .ok _ =>
    let req2 : RpcReq := ⟨"z_listaddresses", []⟩
    match get_address_from_viewing_key node with
    | none => (.error "No z-address found for viewing key", [req1, req2])
    | some a =>
      if a = "" then (.error "No z-address found for viewing key", [req1, req2])
      else
        let req3 : RpcReq := ⟨"z_listreceivedbyaddress", [.str a, .num 0]⟩
        match node.listReceivedPrimaryRes with
        | .ok received => (.ok (buildSummary received now), [req1, req2, req3])
        | .error e =>
          if mentionsInvalidParameter e then
            let req4 : RpcReq := ⟨"z_listreceivedbyaddress", list_received_params (some a) 0⟩
            match node.listReceivedAltRes with
            | .ok received => (.ok (buildSummary received now), [req1, req2, req3, req4])
            | .error e2 => (.error e2, [req1, req2, req3, req4])
          else (.error e, [req1, req2, req3])

/-! ### Summary cache (webapp.py, get_cached_summary) -/

/-- Embeds the HTTPException raised by the web layer. -/
structure HTTPException where
  status_code : ℕ
  detail : String
deriving DecidableEq, Repr

/-- The module-level cache of webapp.py: at most one summary and the wall
clock time it was stored. -/
structure CacheState where
  cached_summary : Option DonationSummary := none
  cache_timestamp : Option ℚ := none
deriving DecidableEq, Repr

/-- The fixed TTL of the cache, in seconds. -/
def CACHE_TTL_SECONDS : ℚ := 60

/-- Embeds get_cached_summary as a state transformer: given the cache
state, the force_refresh flag, the wall clock now and the outcome a scan
would have, it returns the response, the new cache state, and whether
scan_donations was invoked. A fresh scan result replaces summary and
timestamp together; a scan failure leaves the state alone and surfaces a
502 HTTPException wrapping the message. -/
def get_cached_summary (st : CacheState) (force_refresh : Bool) (now : ℚ)
    (scanResult : Except String DonationSummary) :
    Except HTTPException DonationSummary × CacheState × Bool :=
  let refresh : Except HTTPException DonationSummary × CacheState × Bool :=
    match scanResult with
    | .ok s => (.ok s, ⟨some s, some now⟩, true)
    | .error e => (.error ⟨502, "Failed to connect to Zcash RPC: " ++ e⟩, st, true)
  match force_refresh, st.cached_summary, st.cache_timestamp with
  | false, some s, some t =>
    if now - t < CACHE_TTL_SECONDS then (.ok s, st, false)
    else refresh
  | _, _, _ => refresh

/-! ## Theorems -/

/-- The aggregation loop, run from any accumulator, appends exactly the
transactions built from the positive-amount entries and adds exactly the
positive entry amounts. -/
theorem scan_fold_spec (entries : List RawEntry) :
    ∀ (txs : List Transaction) (tot : ℚ),
      entries.foldl scanFoldStep (txs, tot) =
        (txs ++ (entries.filter
            (fun e => decide (0 < entryAmount e))).map mkTransactionOfEntry,
         tot + ((entries.map entryAmount).filter (fun a => decide (0 < a))).sum) := by
  induction entries with
  | nil => intro txs tot; simp
  | cons e rest ih =>
    intro txs tot
    by_cases h : 0 < entryAmount e
    · simp [List.foldl_cons, scanFoldStep, h, ih, List.filter_cons, Prod.mk.injEq]
      ring
    · simp [List.foldl_cons, scanFoldStep, h, ih, List.filter_cons, Prod.mk.injEq]

/-- Filtering entries by positive amount and then reading the amounts gives
the same list as reading the amounts and filtering by positivity. -/
theorem filter_entry_amounts (entries : List RawEntry) :
    ((entries.filter (fun e => decide (0 < entryAmount e))).map entryAmount) =
      (entries.map entryAmount).filter (fun a => decide (0 < a)) := by
  induction entries with
  | nil => rfl
  | cons e rest ih =>
    by_cases h : 0 < entryAmount e
    · simp [List.filter_cons, decide_eq_true h, ih]
    · simp [List.filter_cons, decide_eq_false h, ih]

/-- C1. For every list of raw entries returned by the node, the summary
scan_donations builds satisfies: the total equals the sum of the amounts of
the included transfers, which equals the sum of the entry amounts that are
strictly positive; the count equals the length of the transfer list; the
transfer list is exactly the transactions built from the positive-amount
entries (so no entry with amount at most zero appears in it or contributes
to the total); and every listed transfer has positive amount. -/
theorem scan_summary_invariants (entries : List RawEntry) (now : ℚ) :
    (buildSummary (some entries) now).total_donations =
      ((buildSummary (some entries) now).transactions.map Transaction.amount).sum ∧
    (buildSummary (some entries) now).total_donations =
      ((entries.map entryAmount).filter (fun a => decide (0 < a))).sum ∧
    (buildSummary (some entries) now).tx_count =
      (buildSummary (some entries) now).transactions.length ∧
    (buildSummary (some entries) now).transactions =
      (entries.filter (fun e => decide (0 < entryAmount e))).map mkTransactionOfEntry ∧
    (buildSummary (some entries) now).transactions.all
      (fun tx => decide (0 < tx.amount)) = true := by
  have hb : buildSummary (some entries) now =
      { total_donations := ((entries.map entryAmount).filter (fun a => decide (0 < a))).sum
        tx_count := ((entries.filter
            (fun e => decide (0 < entryAmount e))).map mkTransactionOfEntry).length
        last_updated := now
        transactions := (entries.filter
            (fun e => decide (0 < entryAmount e))).map mkTransactionOfEntry } := by
    cases entries with
    | nil => simp [buildSummary]
    | cons e rest =>
      simp only [buildSummary, List.isEmpty_cons, Bool.false_eq_true, if_false,
        aggregateEntries, scan_fold_spec, List.nil_append, zero_add]
  refine ⟨?_, ?_, ?_, ?_, ?_⟩
  · rw [hb]
    simp only [List.map_map]
    have hcomp : (Transaction.amount ∘ mkTransactionOfEntry) = entryAmount := by
      funext e; rfl
    rw [hcomp, filter_entry_amounts]
  · rw [hb]
  · rw [hb]
  · rw [hb]
  · rw [hb]
    simp only [List.all_eq_true, List.mem_map, List.mem_filter]
    rintro tx ⟨e, ⟨_, he⟩, rfl⟩
    simpa [mkTransactionOfEntry] using he

/-- C2 counterexample. The claim says trailing NUL padding only is
stripped, leading characters preserved; but the source strip call removes
NUL from both ends. On the hex memo 0054657374 (a leading NUL byte before
the bytes of Test) the code produces "Test", while the claimed
trailing-only pipeline produces the five-character string that keeps the
leading NUL; the two disagree. -/
theorem memo_strip_counterexample :
    (mkTransactionOfEntry { memo := some "0054657374", amount := some 1 }).memo =
      some "Test" ∧
    bytesFromHex "0054657374" = some [0x00, 0x54, 0x65, 0x73, 0x74] ∧
    String.mk (stripTrailingNulsOnly (utf8DecodeIgnore [0x00, 0x54, 0x65, 0x73, 0x74])) =
      String.mk ['\x00', 'T', 'e', 's', 't'] ∧
    (mkTransactionOfEntry { memo := some "0054657374", amount := some 1 }).memo ≠
      some (String.mk
        (stripTrailingNulsOnly (utf8DecodeIgnore [0x00, 0x54, 0x65, 0x73, 0x74]))) := by
  refine ⟨by decide, by decide, by decide, by decide⟩

/-- C2 amended. For every entry with a present memo field, the scan decodes
the memo by hex-decoding to bytes, then lossy UTF-8 decoding, then
stripping NUL padding from both ends; hex 54657374 decodes to Test; if hex
decoding fails the memo is preserved as the original raw string, and the
decode is a total function so no exception escapes the per-entry parse. -/
theorem memo_decode_amended (e : RawEntry) (m : String) (hm : e.memo = some m) :
    (mkTransactionOfEntry e).memo = some (decodeMemoValue m) ∧
    (∀ bs, bytesFromHex m = some bs →
      decodeMemoValue m = String.mk (stripNulsBoth (utf8DecodeIgnore bs))) ∧
    (bytesFromHex m = none → decodeMemoValue m = m) ∧
    decodeMemoValue "54657374" = "Test" := by
  refine ⟨?_, ?_, ?_, by decide⟩
  · by_cases h : m = ""
    · subst h
      simp [mkTransactionOfEntry, hm, decodeMemoValue]
      decide
    · simp [mkTransactionOfEntry, hm, h]
  · intro bs hbs
    simp [decodeMemoValue, hbs]
  · intro hbs
    simp [decodeMemoValue, hbs]

/-- C2 witness. The amended memo theorem applied to a concrete entry whose
memo is the hex encoding of Test. -/
theorem memo_decode_amended_witness :
    (mkTransactionOfEntry { memo := some "54657374" : RawEntry }).memo =
      some (decodeMemoValue "54657374") ∧
    decodeMemoValue "54657374" = "Test" :=
  ⟨(memo_decode_amended { memo := some "54657374" } "54657374" rfl).1, by decide⟩

/-- C8. When the list-received call returns no entries (a null or empty
result), scan_donations succeeds and returns the zero summary: total 0,
count 0, empty transfer list, generation time now. -/
theorem scan_empty_result (node : Node) (vk : String) (now : ℚ) (a : String)
    (himp : viewing_key_import node.importKeyRes = .ok ())
    (haddr : get_address_from_viewing_key node = some a) (ha : a ≠ "")
    (hrecv : node.listReceivedPrimaryRes = .ok none ∨
      node.listReceivedPrimaryRes = .ok (some [])) :
    (scan_donations node vk now).1 =
      .ok { total_donations := 0, tx_count := 0, last_updated := now,
            transactions := [] } := by
  rcases hrecv with hrecv | hrecv <;>
    simp [scan_donations, himp, haddr, ha, hrecv, buildSummary]

/-- C8 witness. The empty-result theorem applied to a concrete node whose
list call returns an empty list. -/
theorem scan_empty_result_witness :
    (scan_donations ⟨.ok (), .ok ["zaddr"], .ok (some []), .error "unused"⟩
        "vk" 7).1 =
      .ok { total_donations := 0, tx_count := 0, last_updated := (7 : ℚ),
            transactions := [] } :=
  scan_empty_result ⟨.ok (), .ok ["zaddr"], .ok (some []), .error "unused"⟩
    "vk" 7 "zaddr" rfl rfl (by decide) (Or.inr rfl)

/-- C3. Cache TTL behaviour of get_cached_summary: the TTL is 60 seconds;
with force_refresh false, a cached summary and timestamp present, and the
cache age strictly under the TTL, the identical cached summary is returned,
the state is unchanged and no scan is invoked; once the TTL has elapsed a
call triggers exactly one scan (the invocation flag of the single possible
scan of a call is set); and a forced call always triggers the scan. -/
theorem cache_ttl_behaviour (st : CacheState) (force : Bool) (now : ℚ)
    (scanRes : Except String DonationSummary) :
    CACHE_TTL_SECONDS = 60 ∧
    (∀ s t, force = false → st.cached_summary = some s →
      st.cache_timestamp = some t → now - t < CACHE_TTL_SECONDS →
      get_cached_summary st force now scanRes = (.ok s, st, false)) ∧
    (∀ s t, st.cached_summary = some s → st.cache_timestamp = some t →
      ¬ now - t < CACHE_TTL_SECONDS →
      (get_cached_summary st force now scanRes).2.2 = true) ∧
    (force = true → (get_cached_summary st force now scanRes).2.2 = true) := by
  obtain ⟨cs, ct⟩ := st
  refine ⟨rfl, ?_, ?_, ?_⟩
  · rintro s t rfl rfl rfl httl
    simp [get_cached_summary, httl]
  · rintro s t rfl rfl httl
    cases force <;> simp [get_cached_summary, httl] <;> cases scanRes <;> simp
  · rintro rfl
    cases cs <;> cases ct <;> simp [get_cached_summary] <;> cases scanRes <;> simp

/-- C3 witness. The TTL theorem applied to a concrete populated cache: a
fresh read replays the cached summary without scanning, a stale read and a
forced read both scan. -/
theorem cache_ttl_behaviour_witness :
    get_cached_summary ⟨some ⟨5, 1, 0, []⟩, some 0⟩ false 30 (.error "boom") =
      (.ok ⟨5, 1, 0, []⟩, ⟨some ⟨5, 1, 0, []⟩, some 0⟩, false) ∧
    (get_cached_summary ⟨some ⟨5, 1, 0, []⟩, some 0⟩ false 90 (.ok ⟨6, 2, 90, []⟩)).2.2 =
      true ∧
    (get_cached_summary ⟨some ⟨5, 1, 0, []⟩, some 0⟩ true 30 (.ok ⟨6, 2, 30, []⟩)).2.2 =
      true :=
  ⟨(cache_ttl_behaviour ⟨some ⟨5, 1, 0, []⟩, some 0⟩ false 30 (.error "boom")).2.1
      ⟨5, 1, 0, []⟩ 0 rfl rfl rfl (by norm_num [CACHE_TTL_SECONDS]),
   (cache_ttl_behaviour ⟨some ⟨5, 1, 0, []⟩, some 0⟩ false 90 (.ok ⟨6, 2, 90, []⟩)).2.2.1
      ⟨5, 1, 0, []⟩ 0 rfl rfl (by norm_num [CACHE_TTL_SECONDS]),
   (cache_ttl_behaviour ⟨some ⟨5, 1, 0, []⟩, some 0⟩ true 30 (.ok ⟨6, 2, 30, []⟩)).2.2.2
      rfl⟩

/-- C4. Cache failure isolation: whenever a call actually invokes the scan
and the scan fails, the call surfaces a 502 error wrapping the message and
leaves the cache state untouched; and after any call whose scan failed, a
subsequent unforced call within the old TTL window still replays the
previously cached summary. -/
theorem cache_failure_isolation (st : CacheState) (force : Bool) (now : ℚ)
    (e : String) :
    ((get_cached_summary st force now (.error e)).2.2 = true →
      get_cached_summary st force now (.error e) =
        (.error ⟨502, "Failed to connect to Zcash RPC: " ++ e⟩, st, true)) ∧
    (∀ s t now2 scanRes2, st.cached_summary = some s →
      st.cache_timestamp = some t → now2 - t < CACHE_TTL_SECONDS →
      get_cached_summary (get_cached_summary st force now (.error e)).2.1
          false now2 scanRes2 =
        (.ok s, st, false)) := by
  obtain ⟨cs, ct⟩ := st
  have hstate : (get_cached_summary ⟨cs, ct⟩ force now (.error e)).2.1 = ⟨cs, ct⟩ := by
    cases force <;> cases cs <;> cases ct <;>
      (simp [get_cached_summary]; try (split_ifs <;> rfl))
  constructor
  · intro hscan
    cases force with
    | true => cases cs <;> cases ct <;> simp [get_cached_summary]
    | false =>
      cases cs with
      | none => cases ct <;> simp [get_cached_summary]
      | some s =>
        cases ct with
        | none => simp [get_cached_summary]
        | some t =>
          by_cases httl : now - t < CACHE_TTL_SECONDS
          · exact absurd hscan (by simp [get_cached_summary, httl])
          · simp [get_cached_summary, httl]
  · rintro s t now2 scanRes2 rfl rfl httl
    rw [hstate]
    simp [get_cached_summary, httl]

/-- C4 witness. The failure-isolation theorem applied to a concrete
populated cache and a failing scan: the failure surfaces as a 502, and a
following unforced read within the TTL still returns the old summary. -/
theorem cache_failure_isolation_witness :
    get_cached_summary ⟨some ⟨5, 1, 0, []⟩, some 0⟩ true 10 (.error "down") =
      (.error ⟨502, "Failed to connect to Zcash RPC: down"⟩,
       ⟨some ⟨5, 1, 0, []⟩, some 0⟩, true) ∧
    get_cached_summary
        (get_cached_summary ⟨some ⟨5, 1, 0, []⟩, some 0⟩ true 10 (.error "down")).2.1
        false 20 (.error "down again") =
      (.ok ⟨5, 1, 0, []⟩, ⟨some ⟨5, 1, 0, []⟩, some 0⟩, false) :=
  ⟨(cache_failure_isolation ⟨some ⟨5, 1, 0, []⟩, some 0⟩ true 10 "down").1 rfl,
   (cache_failure_isolation ⟨some ⟨5, 1, 0, []⟩, some 0⟩ true 10 "down").2
      ⟨5, 1, 0, []⟩ 0 20 (.error "down again") rfl rfl
      (by norm_num [CACHE_TTL_SECONDS])⟩

/-- C5. For a well-formed response body: a present non-null error field
makes the call raise a protocol error carrying the remote message, taking
priority over the result field; otherwise the result field is returned
verbatim, with no schema validation (a missing result is returned as
null). -/
theorem rpc_call_error_priority (data : List (String × Json))
    (hw : WellFormedResponse data) :
    (∀ e, jsonGet data "error" = some e → e ≠ Json.null →
      ∃ fields m, e = Json.obj fields ∧
        jsonGet fields "message" = some (Json.str m) ∧
        rpc_call_result data = .error ("RPC error: " ++ m)) ∧
    ((jsonGet data "error" = none ∨ jsonGet data "error" = some Json.null) →
      rpc_call_result data = .ok ((jsonGet data "result").getD Json.null)) := by
  constructor
  · intro e he hne
    rcases hw e he with rfl | ⟨fields, rfl, ⟨q, _⟩, ⟨m, hm⟩⟩
    · exact absurd rfl hne
    · refine ⟨fields, m, rfl, hm, ?_⟩
      have hfne : fields ≠ [] := by
        intro hnil
        rw [hnil] at hm
        simp [jsonGet] at hm
      simp [rpc_call_result, he, Json.truthy, hfne, errMessage, hm, pyStr]
  · rintro (h | h) <;> simp [rpc_call_result, h, Json.truthy]

/-- C5 witness. The error-priority theorem applied to a concrete body
carrying a non-null error object, and its verbatim-result part applied to a
concrete body whose error field is null. -/
theorem rpc_call_error_priority_witness :
    (∃ fields m,
      Json.obj [("code", Json.num (-5)), ("message", Json.str "Invalid address")] =
        Json.obj fields ∧
      jsonGet fields "message" = some (Json.str m) ∧
      rpc_call_result
          [("error",
            Json.obj [("code", Json.num (-5)), ("message", Json.str "Invalid address")]),
           ("result", Json.null)] =
        .error ("RPC error: " ++ m)) ∧
    rpc_call_result [("result", Json.arr []), ("error", Json.null)] =
      .ok (Json.arr []) := by
  constructor
  · exact
      (rpc_call_error_priority
          [("error",
            Json.obj [("code", Json.num (-5)), ("message", Json.str "Invalid address")]),
           ("result", Json.null)]
          (by
            intro e he
            simp only [jsonGet, if_pos rfl] at he
            cases he
            exact Or.inr ⟨_, rfl, ⟨-5, rfl⟩, ⟨"Invalid address", rfl⟩⟩)).1
        _ rfl (by intro h; cases h)
  · exact
      (rpc_call_error_priority [("result", Json.arr []), ("error", Json.null)]
          (by
            intro e he
            simp [jsonGet] at he
            subst he
            exact Or.inl rfl)).2
        (Or.inr (by rfl))

/-- C6. When the primary list call fails with an error classified as
invalid parameter, the scan retries exactly once with the alternate
parameter shape minConf, includeWatchonly, address (the request trace shows
the one extra call and nothing more), and a successful retry completes the
scan without surfacing the first failure; a list failure not classified as
invalid parameter aborts the scan with that error. -/
theorem scan_invalid_parameter_fallback (node : Node) (vk : String) (now : ℚ)
    (a : String) (e : String)
    (himp : viewing_key_import node.importKeyRes = .ok ())
    (haddr : get_address_from_viewing_key node = some a) (ha : a ≠ "")
    (hprim : node.listReceivedPrimaryRes = .error e) :
    (mentionsInvalidParameter e = true →
      ∀ received, node.listReceivedAltRes = .ok received →
        scan_donations node vk now =
          (.ok (buildSummary received now),
           [⟨"z_importviewingkey", [.str vk, .str "whenkeyisnew"]⟩,
            ⟨"z_listaddresses", []⟩,
            ⟨"z_listreceivedbyaddress", [.str a, .num 0]⟩,
            ⟨"z_listreceivedbyaddress", [.num 0, .bool false, .str a]⟩])) ∧
    (mentionsInvalidParameter e = false →
      scan_donations node vk now =
        (.error e,
         [⟨"z_importviewingkey", [.str vk, .str "whenkeyisnew"]⟩,
          ⟨"z_listaddresses", []⟩,
          ⟨"z_listreceivedbyaddress", [.str a, .num 0]⟩])) := by
  constructor
  · intro hclass received halt
    simp [scan_donations, himp, haddr, ha, hprim, hclass, halt, list_received_params]
  · intro hclass
    simp [scan_donations, himp, haddr, ha, hprim, hclass]

/-- C6 witness. The fallback theorem applied to a concrete node whose
primary list call reports an invalid-parameter protocol error and whose
alternate-shape call succeeds with one entry. -/
theorem scan_invalid_parameter_fallback_witness :
    mentionsInvalidParameter "RPC error: Invalid parameter, expected address" = true ∧
    scan_donations
        ⟨.ok (), .ok ["zs1q"],
         .error "RPC error: Invalid parameter, expected address",
         .ok (some [{ txid := some "t1", amount := some 2 }])⟩
        "vk" 3 =
      (.ok (buildSummary (some [{ txid := some "t1", amount := some 2 }]) 3),
       [⟨"z_importviewingkey", [.str "vk", .str "whenkeyisnew"]⟩,
        ⟨"z_listaddresses", []⟩,
        ⟨"z_listreceivedbyaddress", [.str "zs1q", .num 0]⟩,
        ⟨"z_listreceivedbyaddress", [.num 0, .bool false, .str "zs1q"]⟩]) :=
  ⟨by decide,
   (scan_invalid_parameter_fallback
      ⟨.ok (), .ok ["zs1q"],
       .error "RPC error: Invalid parameter, expected address",
       .ok (some [{ txid := some "t1", amount := some 2 }])⟩
      "vk" 3 "zs1q" "RPC error: Invalid parameter, expected address"
      rfl rfl (by decide) rfl).1 (by decide) _ rfl⟩

/-- C7. When the import step fails with a message containing the
already-have marker, the scan behaves exactly as if the import had
succeeded (idempotent import), so a scan whose remaining steps succeed
still succeeds; any other failure of that step aborts the scan with the
wrapped error of the failed credential registration. -/
theorem scan_import_idempotent (node : Node) (vk : String) (now : ℚ) (e : String)
    (h : node.importKeyRes = .error e) :
    (mentionsAlreadyHave e = true →
      scan_donations node vk now =
        scan_donations { node with importKeyRes := .ok () } vk now) ∧
    (mentionsAlreadyHave e = false →
      (scan_donations node vk now).1 =
        .error ("Failed to import viewing key: " ++ e)) ∧
    (mentionsAlreadyHave e = true →
      ∀ a received, get_address_from_viewing_key node = some a → a ≠ "" →
        node.listReceivedPrimaryRes = .ok received →
        (scan_donations node vk now).1 = .ok (buildSummary received now)) := by
  refine ⟨?_, ?_, ?_⟩
  · intro hclass
    simp [scan_donations, viewing_key_import, h, hclass, get_address_from_viewing_key]
  · intro hclass
    simp [scan_donations, viewing_key_import, h, hclass]
  · intro hclass a received haddr ha hrecv
    simp [scan_donations, viewing_key_import, h, hclass, haddr, ha, hrecv]

/-- C7 witness. Two consecutive scans on concrete nodes: the first import
succeeds and the second is reported as already imported; both scans
succeed. -/
theorem scan_import_idempotent_witness :
    mentionsAlreadyHave "RPC error: Error: already have this viewing key" = true ∧
    (scan_donations ⟨.ok (), .ok ["zs1q"], .ok (some []), .error "unused"⟩ "vk" 1).1 =
      .ok ⟨0, 0, 1, []⟩ ∧
    (scan_donations
        ⟨.error "RPC error: Error: already have this viewing key",
         .ok ["zs1q"], .ok (some []), .error "unused"⟩ "vk" 2).1 =
      .ok (buildSummary (some []) 2) :=
  ⟨by decide, rfl,
   (scan_import_idempotent
      ⟨.error "RPC error: Error: already have this viewing key",
       .ok ["zs1q"], .ok (some []), .error "unused"⟩
      "vk" 2 "RPC error: Error: already have this viewing key" rfl).2.2
     (by decide) "zs1q" (some []) rfl (by decide) rfl⟩

/-- Membership through the stable descending insertion. -/
theorem mem_insertByBlockTimeDesc {tx y : Transaction} {l : List Transaction} :
    y ∈ insertByBlockTimeDesc tx l ↔ y = tx ∨ y ∈ l := by
  induction l with
  | nil => simp [insertByBlockTimeDesc]
  | cons z zs ih =>
    by_cases h : btKey z ≤ btKey tx
    · simp [insertByBlockTimeDesc, h]
    · simp [insertByBlockTimeDesc, h, ih]
      tauto

/-- Membership through the descending sort. -/
theorem mem_sortByBlockTimeDesc {y : Transaction} {l : List Transaction} :
    y ∈ sortByBlockTimeDesc l ↔ y ∈ l := by
  induction l with
  | nil => simp [sortByBlockTimeDesc]
  | cons z zs ih => simp [sortByBlockTimeDesc, mem_insertByBlockTimeDesc, ih]

/-- Inserting into a list sorted by descending block time keeps it
sorted. -/
theorem pairwise_insertByBlockTimeDesc {tx : Transaction} {l : List Transaction}
    (h : l.Pairwise (fun a b => btKey b ≤ btKey a)) :
    (insertByBlockTimeDesc tx l).Pairwise (fun a b => btKey b ≤ btKey a) := by
  induction l with
  | nil => simp [insertByBlockTimeDesc]
  | cons z zs ih =>
    rcases List.pairwise_cons.mp h with ⟨hz, hzs⟩
    by_cases hcmp : btKey z ≤ btKey tx
    · rw [insertByBlockTimeDesc, if_pos hcmp]
      refine List.pairwise_cons.mpr ⟨?_, h⟩
      intro w hw
      rcases List.mem_cons.mp hw with rfl | hw
      · exact hcmp
      · exact le_trans (hz w hw) hcmp
    · rw [insertByBlockTimeDesc, if_neg hcmp]
      refine List.pairwise_cons.mpr ⟨?_, ih hzs⟩
      intro w hw
      rcases mem_insertByBlockTimeDesc.mp hw with rfl | hw
      · exact le_of_lt (lt_of_not_le hcmp)
      · exact hz w hw

/-- The descending sort produces a list sorted by descending block time. -/
theorem pairwise_sortByBlockTimeDesc (l : List Transaction) :
    (sortByBlockTimeDesc l).Pairwise (fun a b => btKey b ≤ btKey a) := by
  induction l with
  | nil => simp [sortByBlockTimeDesc]
  | cons z zs ih => exact pairwise_insertByBlockTimeDesc ih

/-- C9. get_last_transactions returns at most limit transfers, in
descending order of block time; every returned transfer comes from the
transfer list of the summary and has a truthy (present and non-zero)
origination time, so transfers with no origination time are excluded. -/
theorem get_last_transactions_spec (s : DonationSummary) (limit : ℕ) :
    (get_last_transactions s limit).length ≤ limit ∧
    (get_last_transactions s limit).Pairwise (fun a b => btKey b ≤ btKey a) ∧
    ∀ tx ∈ get_last_transactions s limit,
      tx ∈ s.transactions ∧ pyTruthyOptInt tx.block_time = true := by
  refine ⟨?_, ?_, ?_⟩
  · rw [get_last_transactions, List.length_take]
    exact min_le_left _ _
  · exact (pairwise_sortByBlockTimeDesc _).sublist (List.take_sublist _ _)
  · intro tx htx
    have hmem : tx ∈ sortByBlockTimeDesc
        (s.transactions.filter (fun t => pyTruthyOptInt t.block_time)) :=
      List.take_subset _ _ htx
    have hf := mem_sortByBlockTimeDesc.mp hmem
    exact ⟨(List.mem_filter.mp hf).1, (List.mem_filter.mp hf).2⟩

/-- C9 witness. The listing theorem applied to a concrete summary with
three transfers, one of them without an origination time. -/
theorem get_last_transactions_spec_witness :
    (get_last_transactions
        ⟨4, 3, 0, [⟨"a", 1, 1, some 5, none⟩, ⟨"b", 1, 1, none, none⟩,
                   ⟨"c", 2, 1, some 9, none⟩]⟩ 2).length ≤ 2 ∧
    (get_last_transactions
        ⟨4, 3, 0, [⟨"a", 1, 1, some 5, none⟩, ⟨"b", 1, 1, none, none⟩,
                   ⟨"c", 2, 1, some 9, none⟩]⟩ 2).Pairwise
      (fun a b => btKey b ≤ btKey a) ∧
    ∀ tx ∈ get_last_transactions
        ⟨4, 3, 0, [⟨"a", 1, 1, some 5, none⟩, ⟨"b", 1, 1, none, none⟩,
                   ⟨"c", 2, 1, some 9, none⟩]⟩ 2,
      tx ∈ [⟨"a", 1, 1, some 5, none⟩, ⟨"b", 1, 1, none, none⟩,
            (⟨"c", 2, 1, some 9, none⟩ : Transaction)] ∧
      pyTruthyOptInt tx.block_time = true :=
  get_last_transactions_spec
    ⟨4, 3, 0, [⟨"a", 1, 1, some 5, none⟩, ⟨"b", 1, 1, none, none⟩,
               ⟨"c", 2, 1, some 9, none⟩]⟩ 2

/-- C10. A transaction whose block_time equals 0 is treated as having no
origination time: its derived timestamp is none, and it never appears in
the list returned by get_last_transactions, exactly like a missing
block_time. -/
theorem zero_block_time_treated_absent (tx : Transaction)
    (h : tx.block_time = some 0) :
    tx.timestamp = none ∧
    ∀ (s : DonationSummary) (limit : ℕ), tx ∉ get_last_transactions s limit := by
  constructor
  · simp [Transaction.timestamp, pyTruthyOptInt, h]
  · intro s limit hmem
    have hs : tx ∈ sortByBlockTimeDesc
        (s.transactions.filter (fun t => pyTruthyOptInt t.block_time)) :=
      List.take_subset _ _ hmem
    have hf := (List.mem_filter.mp (mem_sortByBlockTimeDesc.mp hs)).2
    rw [h] at hf
    simp [pyTruthyOptInt] at hf

/-- C10 witness. The zero-block-time theorem applied to a concrete
transaction with block_time 0 inside a concrete summary. -/
theorem zero_block_time_treated_absent_witness :
    (⟨"d", 2, 1, some 0, none⟩ : Transaction).timestamp = none ∧
    (⟨"d", 2, 1, some 0, none⟩ : Transaction) ∉
      get_last_transactions
        ⟨3, 2, 0, [⟨"a", 1, 1, some 5, none⟩, ⟨"d", 2, 1, some 0, none⟩]⟩ 10 :=
  ⟨(zero_block_time_treated_absent ⟨"d", 2, 1, some 0, none⟩ rfl).1,
   (zero_block_time_treated_absent ⟨"d", 2, 1, some 0, none⟩ rfl).2
     ⟨3, 2, 0, [⟨"a", 1, 1, some 5, none⟩, ⟨"d", 2, 1, some 0, none⟩]⟩ 10⟩

end ZDT
